import Mathlib

/-!
Verification of the herds_pets_ansys_analysis repository.

The development shallowly embeds the pure content of the repository's
Python modules over exact rational arithmetic:

* `src/model_utils.py` — keypoint bounds (`find_bounds`), endpoint-cluster
  selection (`select_unique_points`, `find_endpoints`), end-block creation
  (`create_blocks_from_points`), and the cross-section profile construction
  of `get_beam_model_new`;
* `src/boundary_conditions.py` — displacement computation
  (`get_displacement`) and the boundary-condition dispatchers
  (`apply_boundary_conditions`, `apply_boundary_conditions_areas`) with
  their per-mode entry points;
* `src/ansys_utils.py` — the record construction of `post_process`;
* `src/run_ansys_simulation.py` — the timeout orchestration of
  `run_simulation_with_timeout`, with the worker outcome abstracted to an
  oracle.

The external MAPDL engine is treated as a black box: the embedding models
the data this code computes and hands to the engine (selection ranges,
constraint maps, block dimensions, records), not the engine's response.
Python floats are modelled as exact rationals.
-/

namespace HerdsAnsys

/-- A keypoint, as returned by `mapdl.geometry.get_keypoints().points`:
one row of x, y, z coordinates, modelled with exact rationals. -/
structure Pt where
  x : ℚ
  y : ℚ
  z : ℚ
deriving DecidableEq, Repr

/-- Minimum of a list of rationals; `.min()` of a numpy column.  The
source never calls it on an empty keypoint array (numpy would raise);
the `[]` case is junk. -/
def listMin : List ℚ → ℚ
  | [] => 0
  | x :: xs => xs.foldl min x

/-- Maximum of a list of rationals; `.max()` of a numpy column. -/
def listMax : List ℚ → ℚ
  | [] => 0
  | x :: xs => xs.foldl max x

/-- The eight axis bounds returned by `find_bounds` in `model_utils.py`. -/
structure Bounds where
  xmin : ℚ
  xmax : ℚ
  ymin : ℚ
  ymax : ℚ
  zmin : ℚ
  zmax : ℚ
  ymin_2nd : ℚ
  ymax_2nd : ℚ
deriving DecidableEq, Repr

/-- Model of `find_bounds` (model_utils.py lines 206-251): per-axis min/max of the
keypoint coordinates, plus the "second" Y bounds: the min/max Y among
keypoints whose Y differs from the respective global extreme, falling back
to the global extreme when no such keypoint exists (the
`if len(nodes_coords[nodes_coords[:, 1] != ymin]) > 0` guards). -/
def find_bounds (ps : List Pt) : Bounds :=
  { xmin := listMin (ps.map Pt.x)
    xmax := listMax (ps.map Pt.x)
    ymin := listMin (ps.map Pt.y)
    ymax := listMax (ps.map Pt.y)
    zmin := listMin (ps.map Pt.z)
    zmax := listMax (ps.map Pt.z)
    ymin_2nd :=
      if ((ps.filter (fun pt => decide (pt.y ≠ listMin (ps.map Pt.y)))).map Pt.y).isEmpty
      then listMin (ps.map Pt.y)
      else listMin ((ps.filter (fun pt => decide (pt.y ≠ listMin (ps.map Pt.y)))).map Pt.y)
    ymax_2nd :=
      if ((ps.filter (fun pt => decide (pt.y ≠ listMax (ps.map Pt.y)))).map Pt.y).isEmpty
      then listMax (ps.map Pt.y)
      else listMax ((ps.filter (fun pt => decide (pt.y ≠ listMax (ps.map Pt.y)))).map Pt.y) }

/-- Model of `get_displacement` (boundary_conditions.py lines 77-91): for the HERDS
and KRESLING mechanism types the displacement is a percentage of the full
Y-span; for every other mechanism type it is a percentage of the inner
span `ymax_2nd - ymin_2nd`. -/
def get_displacement (ps : List Pt) (mech_type : String) (percent_displacement : ℚ) : ℚ :=
  let b := find_bounds ps
  if mech_type = "HERDS" ∨ mech_type = "KRESLING" then
    (b.ymax - b.ymin) * percent_displacement / 100
  else
    (b.ymax_2nd - b.ymin_2nd) * percent_displacement / 100

/-- The displacement selection shared by both dispatchers and
`post_process` (boundary_conditions.py lines 25 and 61, ansys_utils.py
line 113): `fixed_displacement if fixed_displacement is not None else
get_displacement(...)`. -/
def displacementOf (ps : List Pt) (mech_type : String) (percent_displacement : ℚ)
    (fixed_displacement : Option ℚ) : ℚ :=
  match fixed_displacement with
  | some v => v
  | none => get_displacement ps mech_type percent_displacement

/-- Whether a selection picks nodes (`nsel`/`cm NODE`) or areas
(`asel`/`cm AREA`). -/
inductive EntKind
  | node
  | area
deriving DecidableEq, Repr

/-- An inclusive coordinate range handed to `nsel`/`asel` (`vmin, vmax`). -/
structure CoordRange where
  lo : ℚ
  hi : ℚ
deriving DecidableEq, Repr

/-- One `select_and_fix_nodes` / `select_and_fix_areas` selection: the
entity kind, the Y range, and the optional X range refinement. -/
structure Selection where
  kind : EntKind
  yRange : CoordRange
  xRange : Option CoordRange
deriving DecidableEq, Repr

/-- One dispatcher invocation's observable output: the fixed and driven
selections together with the constraint maps applied to them.  Constraint
maps keep the Python dict's insertion order as association lists from
channel name (`UX`, `UY`, `UZ`, `ROTX`, `ROTY`, `ROTZ`) to prescribed
value. -/
structure BCAction where
  fixedSel : Selection
  fixedCons : List (String × ℚ)
  drivenSel : Selection
  drivenCons : List (String × ℚ)
deriving DecidableEq, Repr

/-- The default `fixed_constraints={'UX': 0, 'UY': 0, 'UZ': 0}` argument. -/
def defaultFixedCons : List (String × ℚ) := [("UX", 0), ("UY", 0), ("UZ", 0)]

/-- Model of `apply_boundary_conditions` (boundary_conditions.py lines 5-39), the
node-based dispatcher.  Returns the selections and constraint maps it
applies; `none` when `boundary_type` matches no branch (the Python
function then applies nothing). -/
def apply_boundary_conditions (ps : List Pt) (mech_type : String)
    (percent_displacement : ℚ) (fixed_displacement : Option ℚ)
    (boundary_type : String) (driven_constraints : ℚ → List (String × ℚ))
    (fixed_constraints : List (String × ℚ)) : Option BCAction :=
  let d := displacementOf ps mech_type percent_displacement fixed_displacement
  let b := find_bounds ps
  if boundary_type = "compression" ∨ boundary_type = "tension" then
    some ⟨⟨.node, ⟨b.ymin, b.ymin⟩, none⟩, fixed_constraints,
          ⟨.node, ⟨b.ymax, b.ymax⟩, none⟩, driven_constraints d⟩
  else if boundary_type = "cant_x" ∨ boundary_type = "cant_z" then
    some ⟨⟨.node, ⟨b.ymax, b.ymax⟩, none⟩, fixed_constraints,
          ⟨.node, ⟨b.ymin, b.ymin⟩, some ⟨b.xmax, b.xmax⟩⟩, driven_constraints d⟩
  else if boundary_type = "torsion" then
    some ⟨⟨.node, ⟨b.ymin, b.ymin⟩, none⟩, fixed_constraints,
          ⟨.node, ⟨b.ymax, b.ymax⟩, none⟩, driven_constraints d⟩
  else none

/-- Model of `apply_boundary_conditions_areas` (boundary_conditions.py lines
41-75), the area-based dispatcher: the fixed group is an area selection
over `ymin..ymin_2nd`; the driven group is an area selection over
`ymax_2nd..ymax` for compression/tension, a node selection at
`Y = ymax, X = xmax` for the cantilever modes, and a node selection over
`ymax_2nd..ymax` for torsion. -/
def apply_boundary_conditions_areas (ps : List Pt) (mech_type : String)
    (percent_displacement : ℚ) (fixed_displacement : Option ℚ)
    (boundary_type : String) (driven_constraints : ℚ → List (String × ℚ))
    (fixed_constraints : List (String × ℚ)) : Option BCAction :=
  let d := displacementOf ps mech_type percent_displacement fixed_displacement
  let b := find_bounds ps
  if boundary_type = "compression" ∨ boundary_type = "tension" then
    some ⟨⟨.area, ⟨b.ymin, b.ymin_2nd⟩, none⟩, fixed_constraints,
          ⟨.area, ⟨b.ymax_2nd, b.ymax⟩, none⟩, driven_constraints d⟩
  else if boundary_type = "cant_x" ∨ boundary_type = "cant_z" then
    some ⟨⟨.area, ⟨b.ymin, b.ymin_2nd⟩, none⟩, fixed_constraints,
          ⟨.node, ⟨b.ymax, b.ymax⟩, some ⟨b.xmax, b.xmax⟩⟩, driven_constraints d⟩
  else if boundary_type = "torsion" then
    some ⟨⟨.area, ⟨b.ymin, b.ymin_2nd⟩, none⟩, fixed_constraints,
          ⟨.node, ⟨b.ymax_2nd, b.ymax⟩, none⟩, driven_constraints d⟩
  else none

/-- Model of `compression_kres` (boundary_conditions.py lines 164-166). -/
def compression_kres (ps : List Pt) (mech_type : String) (percent_displacement : ℚ)
    (fixed_displacement : Option ℚ) : Option BCAction :=
  apply_boundary_conditions ps mech_type percent_displacement fixed_displacement
    "compression" (fun d => [("UX", 0), ("UY", -d), ("UZ", 0)]) defaultFixedCons

/-- Model of `tension_kres` (boundary_conditions.py lines 168-170). -/
def tension_kres (ps : List Pt) (mech_type : String) (percent_displacement : ℚ)
    (fixed_displacement : Option ℚ) : Option BCAction :=
  apply_boundary_conditions ps mech_type percent_displacement fixed_displacement
    "tension" (fun d => [("UX", 0), ("UY", d), ("UZ", 0)]) defaultFixedCons

/-- Model of `cant_x_kres` (boundary_conditions.py lines 172-174). -/
def cant_x_kres (ps : List Pt) (mech_type : String) (percent_displacement : ℚ)
    (fixed_displacement : Option ℚ) : Option BCAction :=
  apply_boundary_conditions ps mech_type percent_displacement fixed_displacement
    "cant_x" (fun d => [("UX", -d), ("UZ", 0)]) defaultFixedCons

/-- Model of `cant_z_kres` (boundary_conditions.py lines 176-178). -/
def cant_z_kres (ps : List Pt) (mech_type : String) (percent_displacement : ℚ)
    (fixed_displacement : Option ℚ) : Option BCAction :=
  apply_boundary_conditions ps mech_type percent_displacement fixed_displacement
    "cant_z" (fun d => [("UZ", -d), ("UX", 0)]) defaultFixedCons

/-- Model of `torsion_kres` (boundary_conditions.py lines 180-183). -/
def torsion_kres (ps : List Pt) (mech_type : String) (percent_displacement : ℚ)
    (fixed_displacement : Option ℚ) : Option BCAction :=
  apply_boundary_conditions ps mech_type percent_displacement fixed_displacement
    "torsion"
    (fun d => [("UX", 0), ("UY", 0), ("UZ", 0), ("ROTX", 0), ("ROTY", d), ("ROTZ", 0)])
    [("UX", 0), ("UY", 0), ("UZ", 0), ("ROTX", 0), ("ROTY", 0), ("ROTZ", 0)]

/-- Model of `compression` (boundary_conditions.py lines 185-187), the area
variant. -/
def compression (ps : List Pt) (mech_type : String) (percent_displacement : ℚ)
    (fixed_displacement : Option ℚ) : Option BCAction :=
  apply_boundary_conditions_areas ps mech_type percent_displacement fixed_displacement
    "compression" (fun d => [("UX", 0), ("UY", -d), ("UZ", 0)]) defaultFixedCons

/-- Model of `tension` (boundary_conditions.py lines 189-191), the area variant. -/
def tension (ps : List Pt) (mech_type : String) (percent_displacement : ℚ)
    (fixed_displacement : Option ℚ) : Option BCAction :=
  apply_boundary_conditions_areas ps mech_type percent_displacement fixed_displacement
    "tension" (fun d => [("UX", 0), ("UY", d), ("UZ", 0)]) defaultFixedCons

/-- Model of `cant_z` (boundary_conditions.py lines 197-199), the area variant. -/
def cant_z (ps : List Pt) (mech_type : String) (percent_displacement : ℚ)
    (fixed_displacement : Option ℚ) : Option BCAction :=
  apply_boundary_conditions_areas ps mech_type percent_displacement fixed_displacement
    "cant_z" (fun d => [("UZ", -d), ("UX", 0)]) defaultFixedCons

/-- A member-table row of the configuration CSV: segment endpoints and
cross-section width/height. -/
structure MemberRow where
  x1 : ℚ
  y1 : ℚ
  z1 : ℚ
  x2 : ℚ
  y2 : ℚ
  z2 : ℚ
  width : ℚ
  height : ℚ
deriving DecidableEq, Repr

/-- The rescaling at the top of `get_beam_model_new` (model_utils.py lines
24-25): coordinates are multiplied by `scale`, width/height by
`cross_scale`. -/
def scaled_rows (scale cross_scale : ℚ) (rows : List MemberRow) : List MemberRow :=
  rows.map (fun r =>
    ⟨r.x1 * scale, r.y1 * scale, r.z1 * scale,
     r.x2 * scale, r.y2 * scale, r.z2 * scale,
     r.width * cross_scale, r.height * cross_scale⟩)

/-- pandas `Series.unique()`: the distinct values of a column in order of
first appearance. -/
def uniqueFirstSeen {α : Type} [DecidableEq α] (l : List α) : List α :=
  l.foldl (fun acc v => if v ∈ acc then acc else acc ++ [v]) []

/-- The `cross_section_types` construction of `get_beam_model_new`
(model_utils.py lines 27-34): one `(width, height)` profile per index `i`
in `range(len(width_values))`, pairing `width_values[i]` with
`height_values[i]` where the value arrays are the per-column distinct
values in first-seen order.  `none` models the `IndexError` raised when
there are fewer distinct heights than distinct widths. -/
def cross_section_types (rows : List MemberRow) : Option (List (ℚ × ℚ)) :=
  let width_values := uniqueFirstSeen (rows.map MemberRow.width)
  let height_values := uniqueFirstSeen (rows.map MemberRow.height)
  if height_values.length < width_values.length then none
  else some ((List.range width_values.length).map
    (fun i => (width_values.getD i 0, height_values.getD i 0)))

/-- The cross-section profiles `get_beam_model_new` creates via
`sectype`/`secdata`, after rescaling the member table. -/
def beam_model_profiles (rows : List MemberRow) (scale cross_scale : ℚ) :
    Option (List (ℚ × ℚ)) :=
  cross_section_types (scaled_rows scale cross_scale rows)

/-- The per-member section assignment of `get_beam_model_new`
(model_utils.py lines 40-41): `lsel('ALL')` followed by
`latt(mat=1, type_=1, secnum=1)` gives every member's line the section
number 1, whatever its own width/height. -/
def beam_model_secnum (rows : List MemberRow) : List ℕ :=
  rows.map (fun _ => 1)

/-- Stated from the claim's words, for comparison with the code: the
number of distinct `(width, height)` pairs of the member table taken in
input order. -/
def spec_distinct_pair_count (rows : List MemberRow) : ℕ :=
  (uniqueFirstSeen (rows.map (fun r => (r.width, r.height)))).length

/-- A scalar slot of a result row: a rational value or the `np.nan`
sentinel used for the force/moment slots of a non-converged case. -/
inductive Val
  | num (q : ℚ)
  | nan
deriving DecidableEq, Repr

/-- Whether a `Val` is a well-formed (non-sentinel) number. -/
def Val.isNum : Val → Bool
  | .num _ => true
  | .nan => false

/-- One result row written by `post_process`:
`[displacement, fx, fy, fz, mx, my, mz, length]`. -/
structure SimRecord where
  disp : Val
  fx : Val
  fy : Val
  fz : Val
  mx : Val
  my : Val
  mz : Val
  len : Val
deriving DecidableEq, Repr

/-- The characteristic length of `post_process` (ansys_utils.py lines
115-118): the full Y-span for KRESLING/HERDS, the inner span otherwise. -/
def characteristic_length (ps : List Pt) (mech_type : String) : ℚ :=
  if mech_type = "KRESLING" ∨ mech_type = "HERDS" then
    (find_bounds ps).ymax - (find_bounds ps).ymin
  else
    (find_bounds ps).ymax_2nd - (find_bounds ps).ymin_2nd

/-- Model of `post_process` (ansys_utils.py lines 95-148).  `converged` is the
engine's `mapdl.solution.converged` flag and `fsum` its reaction-sum query
for the driven group, both black boxes.  Returns the rows written to the
result CSV and the boolean returned to the caller: on non-convergence a
single row with NaN force/moment slots and `False`; on success a single
row of the summed reactions and `True`. -/
def post_process (ps : List Pt) (percent_displacement : ℚ) (mech_type : String)
    (fixed_displacement : Option ℚ) (converged : Bool) (fsum : String → ℚ) :
    List SimRecord × Bool :=
  let displacement := displacementOf ps mech_type percent_displacement fixed_displacement
  let length := characteristic_length ps mech_type
  if !converged then
    ([⟨.num displacement, .nan, .nan, .nan, .nan, .nan, .nan, .num length⟩], false)
  else
    ([⟨.num displacement, .num (fsum "FX"), .num (fsum "FY"), .num (fsum "FZ"),
       .num (fsum "MX"), .num (fsum "MY"), .num (fsum "MZ"), .num length⟩], true)

/-- The worker's fate, abstracting the process/wall-clock machinery of
`run_simulation_with_timeout`: either `run_simulation` finishes within the
timeout and puts its boolean result on the queue, or the worker is still
alive when `p.join(timeout)` returns. -/
inductive WorkerOutcome
  | timesOut
  | finishes (solved : Bool)
deriving DecidableEq, Repr

/-- The externally visible steps the orchestrating process takes;
`persistRecord` would be a write of a result record performed by the
orchestrator itself (the Python function performs none — records are
written only inside the worker), `raiseError` a propagated exception
(the function returns on both paths instead). -/
inductive OrchAction
  | startWorker
  | joinWithTimeout (seconds : ℚ)
  | terminateWorker
  | persistRecord
  | raiseError
deriving DecidableEq, Repr

/-- The `timeout=1800` default of `run_simulation_with_timeout`
(run_ansys_simulation.py line 10), in seconds. -/
def default_timeout : ℚ := 1800

/-- Model of `run_simulation_with_timeout` (run_ansys_simulation.py lines 10-44):
start the worker, join with the timeout; if the worker is still alive,
terminate it and return `None`; otherwise return the queued result.  The
returned trace lists the orchestrator's own actions. -/
def run_simulation_with_timeout (w : WorkerOutcome) (timeout : ℚ) :
    List OrchAction × Option Bool :=
  match w with
  | .timesOut => ([.startWorker, .joinWithTimeout timeout, .terminateWorker], none)
  | .finishes r => ([.startWorker, .joinWithTimeout timeout], some r)

/-- The sweep loop of the `run_all_*` scripts (for example
run_all_deployment_test.py lines 33-43): each queued case is handed to
`run_simulation_with_timeout` with the default timeout, one after the
other, whatever the outcome of the previous cases. -/
def run_all_sweep (cases : List WorkerOutcome) : List (Option Bool) :=
  cases.map (fun c => (run_simulation_with_timeout c default_timeout).2)

/-- Squared Euclidean distance between keypoints;
`np.linalg.norm(point - p) > 1e-6` is equivalent to
`distSq point p > (1e-6)^2` since both sides are nonnegative. -/
def distSq (p q : Pt) : ℚ :=
  (p.x - q.x)^2 + (p.y - q.y)^2 + (p.z - q.z)^2

/-- The squared `1e-6` deduplication tolerance of `select_unique_points`. -/
def sep_tol_sq : ℚ := 1 / 1000000000000

/-- One of the two greedy passes of `select_unique_points` (model_utils.py
lines 192-204): walk the node list, appending a point when the list of
kept points is below `limit` and the point is farther than `1e-6` from
every kept point; once the list reaches `limit` the loop breaks. -/
def selectLoop (limit : ℕ) : List Pt → List Pt → List Pt
  | [], acc => acc
  | pt :: rest, acc =>
    if acc.length < limit then
      if acc.isEmpty || acc.all (fun q => decide (sep_tol_sq < distSq pt q)) then
        selectLoop limit rest (acc ++ [pt])
      else
        selectLoop limit rest acc
    else acc

/-- Model of `select_unique_points` (model_utils.py lines 178-204): the min-side
pass walks the Y-sorted nodes forward, the max-side pass walks them in
reverse. -/
def select_unique_points (sorted_nodes : List Pt) (min_y_limit max_y_limit : ℕ) :
    List Pt × List Pt :=
  (selectLoop min_y_limit sorted_nodes [],
   selectLoop max_y_limit sorted_nodes.reverse [])

/-- Insertion step of the Y sort used to model `np.argsort` on column 1. -/
def insertByY (pt : Pt) : List Pt → List Pt
  | [] => [pt]
  | q :: rest => if pt.y ≤ q.y then pt :: q :: rest else q :: insertByY pt rest

/-- Sort keypoints by ascending Y (`nodes_coords[np.argsort(...)]`). -/
def sortByY (l : List Pt) : List Pt := l.foldr insertByY []

/-- Model of `find_endpoints` (model_utils.py lines 153-176): Y-sort the keypoints,
then select up to 5 min-side and 3 max-side points for PET, up to 2 and 2
for SCISSOR, and nothing for any other mechanism type. -/
def find_endpoints (mech_type : String) (nodes : List Pt) : List Pt × List Pt :=
  let sorted := sortByY nodes
  if mech_type = "PET" then select_unique_points sorted 5 3
  else if mech_type = "SCISSOR" then select_unique_points sorted 2 2
  else ([], [])

/-- One `blc4` call: corner coordinates, width, height and depth of a
solid block. -/
structure Block where
  xc : ℚ
  yc : ℚ
  width : ℚ
  height : ℚ
  depth : ℚ
deriving DecidableEq, Repr

/-- Insertion step of the X sort used to model
`sorted(points, key=lambda point: point[0])`. -/
def insertByX (pt : Pt) : List Pt → List Pt
  | [] => [pt]
  | q :: rest => if pt.x ≤ q.x then pt :: q :: rest else q :: insertByX pt rest

/-- Sort keypoints by ascending X. -/
def sortByX (l : List Pt) : List Pt := l.foldr insertByX []

/-- The nonzero-depth loop body of `create_blocks_from_points`: one block
per consecutive pair of X-sorted points, reusing the height fixed from the
first pair. -/
def blocksLoop (height depth : ℚ) : List Pt → List Block
  | a :: b :: rest => ⟨a.x, min a.y b.y, b.x - a.x, height, depth⟩ :: blocksLoop height depth (b :: rest)
  | _ => []

/-- Model of `create_blocks_from_points` (model_utils.py lines 115-151): X-sort the
points; the height comes from the first pair (`abs(y2-y1)`, replaced by
3.0 when zero); the depth is the Z extent `zmax - zmin`.  When that extent
is zero the function creates exactly two blocks of depth `3.0` and `-3.0`
(signed height `direction * height`, with `direction = -1` when the first
point's Y is negative) and returns early; otherwise it creates one block
per consecutive pair. -/
def create_blocks_from_points (points : List Pt) (zmax zmin : ℚ) : List Block :=
  match sortByX points with
  | [] => []
  | [_] => []
  | p0 :: p1 :: rest =>
    let height0 := |p1.y - p0.y|
    let height := if height0 = 0 then 3 else height0
    let depth := zmax - zmin
    if depth = 0 then
      let direction : ℚ := if p0.y < 0 then -1 else 1
      [⟨p0.x, min p0.y p1.y, p1.x - p0.x, direction * height, 3⟩,
       ⟨p0.x, min p0.y p1.y, p1.x - p0.x, direction * height, -3⟩]
    else
      blocksLoop height depth (p0 :: p1 :: rest)

/-- The pairwise separation property of an endpoint cluster: any two of
its points are farther than `1e-6` apart (squared distances compared
against the squared tolerance). -/
def PairSep (l : List Pt) : Prop :=
  l.Pairwise (fun p q => sep_tol_sq < distSq p q)

/-- Concrete keypoints exercising the cantilever-Z node dispatcher. -/
def cexPts : List Pt := [⟨0, 0, 0⟩, ⟨1, 1, 1⟩]

/-- A member table with one distinct width but two distinct
`(width, height)` pairs. -/
def cexRows : List MemberRow :=
  [⟨0, 0, 0, 1, 0, 0, 1, 1⟩, ⟨0, 0, 0, 0, 1, 0, 1, 2⟩]

/-- A one-row member table for exercising the profile construction. -/
def wRow : MemberRow := ⟨0, 0, 0, 1, 1, 1, 2, 5⟩

/-- Keypoints spanning Y from 0 to 10, for exercising the displacement
computation. -/
def wPts : List Pt := [⟨0, 0, 0⟩, ⟨0, 10, 0⟩]

/-- A concrete driven-constraint map builder. -/
def wDriven : ℚ → List (String × ℚ) := fun d => [("UY", -d)]

/-- The action `apply_boundary_conditions` produces on `wPts` for
compression of a HERDS mechanism at 2 percent: the computed displacement
is `(10 - 0) * 2 / 100 = 1/5`. -/
def wAct : BCAction :=
  ⟨⟨.node, ⟨0, 0⟩, none⟩, defaultFixedCons, ⟨.node, ⟨10, 10⟩, none⟩, [("UY", -(1/5))]⟩

theorem foldl_min_le_init (l : List ℚ) (a : ℚ) : l.foldl min a ≤ a := by
  induction l generalizing a with
  | nil => simp
  | cons b t ih =>
      simp only [List.foldl_cons]
      exact le_trans (ih (min a b)) (min_le_left a b)

theorem foldl_min_le_mem (l : List ℚ) (a y : ℚ) : y ∈ l → l.foldl min a ≤ y := by
  induction l generalizing a with
  | nil => intro h; cases h
  | cons b t ih =>
      intro hy
      simp only [List.foldl_cons]
      rcases List.mem_cons.1 hy with rfl | hmem
      · exact le_trans (foldl_min_le_init t (min a y)) (min_le_right a y)
      · exact ih (min a b) hmem

theorem foldl_min_mem_or (l : List ℚ) (a : ℚ) :
    l.foldl min a = a ∨ l.foldl min a ∈ l := by
  induction l generalizing a with
  | nil => left; rfl
  | cons b t ih =>
      simp only [List.foldl_cons]
      rcases ih (min a b) with h | h
      · rw [h]
        rcases min_choice a b with h2 | h2
        · left; exact h2
        · right; rw [h2]; exact List.mem_cons_self b t
      · right; exact List.mem_cons_of_mem b h

theorem init_le_foldl_max (l : List ℚ) (a : ℚ) : a ≤ l.foldl max a := by
  induction l generalizing a with
  | nil => simp
  | cons b t ih =>
      simp only [List.foldl_cons]
      exact le_trans (le_max_left a b) (ih (max a b))

theorem mem_le_foldl_max (l : List ℚ) (a y : ℚ) : y ∈ l → y ≤ l.foldl max a := by
  induction l generalizing a with
  | nil => intro h; cases h
  | cons b t ih =>
      intro hy
      simp only [List.foldl_cons]
      rcases List.mem_cons.1 hy with rfl | hmem
      · exact le_trans (le_max_right a y) (init_le_foldl_max t (max a y))
      · exact ih (max a b) hmem

theorem foldl_max_mem_or (l : List ℚ) (a : ℚ) :
    l.foldl max a = a ∨ l.foldl max a ∈ l := by
  induction l generalizing a with
  | nil => left; rfl
  | cons b t ih =>
      simp only [List.foldl_cons]
      rcases ih (max a b) with h | h
      · rw [h]
        rcases max_choice a b with h2 | h2
        · left; exact h2
        · right; rw [h2]; exact List.mem_cons_self b t
      · right; exact List.mem_cons_of_mem b h

theorem listMin_le (l : List ℚ) (y : ℚ) (hy : y ∈ l) : listMin l ≤ y := by
  cases l with
  | nil => cases hy
  | cons x xs =>
      show xs.foldl min x ≤ y
      rcases List.mem_cons.1 hy with rfl | hmem
      · exact foldl_min_le_init xs y
      · exact foldl_min_le_mem xs x y hmem

theorem le_listMax (l : List ℚ) (y : ℚ) (hy : y ∈ l) : y ≤ listMax l := by
  cases l with
  | nil => cases hy
  | cons x xs =>
      show y ≤ xs.foldl max x
      rcases List.mem_cons.1 hy with rfl | hmem
      · exact init_le_foldl_max xs y
      · exact mem_le_foldl_max xs x y hmem

theorem listMin_mem (l : List ℚ) (h : l ≠ []) : listMin l ∈ l := by
  cases l with
  | nil => exact absurd rfl h
  | cons x xs =>
      show xs.foldl min x ∈ x :: xs
      rcases foldl_min_mem_or xs x with h2 | h2
      · rw [h2]; exact List.mem_cons_self x xs
      · exact List.mem_cons_of_mem x h2

theorem listMax_mem (l : List ℚ) (h : l ≠ []) : listMax l ∈ l := by
  cases l with
  | nil => exact absurd rfl h
  | cons x xs =>
      show xs.foldl max x ∈ x :: xs
      rcases foldl_max_mem_or xs x with h2 | h2
      · rw [h2]; exact List.mem_cons_self x xs
      · exact List.mem_cons_of_mem x h2

theorem listMin_le_listMax (l : List ℚ) (h : l ≠ []) : listMin l ≤ listMax l :=
  le_listMax l (listMin l) (listMin_mem l h)

theorem listMin_const (l : List ℚ) (c : ℚ) (h : l ≠ []) (hc : ∀ y ∈ l, y = c) :
    listMin l = c :=
  hc (listMin l) (listMin_mem l h)

theorem listMax_const (l : List ℚ) (c : ℚ) (h : l ≠ []) (hc : ∀ y ∈ l, y = c) :
    listMax l = c :=
  hc (listMax l) (listMax_mem l h)

/-- C1: the applied scalar displacement equals the caller-supplied fixed
displacement verbatim when one is supplied (percent and reference length
ignored); otherwise it equals `percent * L / 100` where the reference
length `L` is the full Y-span for the HERDS and KRESLING mechanism types
and the inner span `ymax_2nd - ymin_2nd` for every other mechanism type;
and every loading-mode invocation of either dispatcher builds its driven
constraint map from exactly this displacement. -/
theorem displacement_computation_spec (ps : List Pt) (mech_type : String) (p v : ℚ) :
    displacementOf ps mech_type p (some v) = v ∧
    displacementOf ps mech_type p none =
      p * (if mech_type = "HERDS" ∨ mech_type = "KRESLING"
           then (find_bounds ps).ymax - (find_bounds ps).ymin
           else (find_bounds ps).ymax_2nd - (find_bounds ps).ymin_2nd) / 100 ∧
    (∀ fd btype driven fixed act,
       apply_boundary_conditions ps mech_type p fd btype driven fixed = some act →
       act.drivenCons = driven (displacementOf ps mech_type p fd)) ∧
    (∀ fd btype driven fixed act,
       apply_boundary_conditions_areas ps mech_type p fd btype driven fixed = some act →
       act.drivenCons = driven (displacementOf ps mech_type p fd)) := by
  refine ⟨rfl, ?_, ?_, ?_⟩
  · show get_displacement ps mech_type p = _
    unfold get_displacement
    split_ifs <;> ring
  · intro fd btype driven fixed act h
    unfold apply_boundary_conditions at h
    split_ifs at h
    · injection h with h2; subst h2; rfl
    · injection h with h2; subst h2; rfl
    · injection h with h2; subst h2; rfl
  · intro fd btype driven fixed act h
    unfold apply_boundary_conditions_areas at h
    split_ifs at h
    · injection h with h2; subst h2; rfl
    · injection h with h2; subst h2; rfl
    · injection h with h2; subst h2; rfl

theorem displacement_computation_spec_witness :
    BCAction.drivenCons wAct = wDriven (displacementOf wPts "HERDS" 2 none) :=
  (displacement_computation_spec wPts "HERDS" 2 0).2.2.1 none "compression" wDriven
    defaultFixedCons wAct
    (by norm_num [apply_boundary_conditions, displacementOf, get_displacement,
          find_bounds, listMin, listMax, wPts, wDriven, wAct, defaultFixedCons])

/-- C2 counterexample: for the cantilever-Z loading mode the node-variant
dispatcher (`cant_z_kres`) selects the driven group at `Y = ymin`, not at
`Y = ymax` as claimed: on keypoints with `ymin = 0` and `ymax = 1` the
driven Y-range is `(0, 0)`, not `(1, 1)`. -/
theorem cant_z_node_driven_not_at_ymax :
    (cant_z_kres cexPts "PET" 1 none).map (fun a => a.drivenSel.yRange) ≠
      some ⟨(find_bounds cexPts).ymax, (find_bounds cexPts).ymax⟩ := by
  decide

/-- C2 amended: for the cantilever-Z loading mode the node variant fixes
the group at `Y = ymax` and drives the group at `Y = ymin` restricted to
`X = xmax`; the area variant fixes areas over `Y ∈ [ymin, ymin_2nd]` and
drives nodes at `Y = ymax` restricted to `X = xmax`; both apply the driven
constraint `UZ = -d` with `UX = 0` where `d` is the computed
displacement. -/
theorem cant_z_dispatch_amended (ps : List Pt) (mech_type : String) (p : ℚ)
    (fd : Option ℚ) :
    cant_z_kres ps mech_type p fd = some
      ⟨⟨.node, ⟨(find_bounds ps).ymax, (find_bounds ps).ymax⟩, none⟩, defaultFixedCons,
       ⟨.node, ⟨(find_bounds ps).ymin, (find_bounds ps).ymin⟩,
         some ⟨(find_bounds ps).xmax, (find_bounds ps).xmax⟩⟩,
       [("UZ", -(displacementOf ps mech_type p fd)), ("UX", 0)]⟩ ∧
    cant_z ps mech_type p fd = some
      ⟨⟨.area, ⟨(find_bounds ps).ymin, (find_bounds ps).ymin_2nd⟩, none⟩, defaultFixedCons,
       ⟨.node, ⟨(find_bounds ps).ymax, (find_bounds ps).ymax⟩,
         some ⟨(find_bounds ps).xmax, (find_bounds ps).xmax⟩⟩,
       [("UZ", -(displacementOf ps mech_type p fd)), ("UX", 0)]⟩ := by
  constructor
  · simp [cant_z_kres, apply_boundary_conditions]
  · simp [cant_z, apply_boundary_conditions_areas]

/-- C8: for the same displacement input, compression and tension (in both
the node and the area variant) use identical fixed-group and driven-group
selections and identical fixed constraints, and their driven constraint
maps prescribe UY values of equal magnitude and opposite sign:
`UY = -d` for compression and `UY = +d` for tension. -/
theorem compression_tension_mirror (ps : List Pt) (mech_type : String) (p : ℚ)
    (fd : Option ℚ) :
    (∃ a b : BCAction,
       compression_kres ps mech_type p fd = some a ∧
       tension_kres ps mech_type p fd = some b ∧
       a.fixedSel = b.fixedSel ∧ a.fixedCons = b.fixedCons ∧ a.drivenSel = b.drivenSel ∧
       List.lookup "UY" a.drivenCons = some (-(displacementOf ps mech_type p fd)) ∧
       List.lookup "UY" b.drivenCons = some (displacementOf ps mech_type p fd)) ∧
    (∃ a b : BCAction,
       compression ps mech_type p fd = some a ∧
       tension ps mech_type p fd = some b ∧
       a.fixedSel = b.fixedSel ∧ a.fixedCons = b.fixedCons ∧ a.drivenSel = b.drivenSel ∧
       List.lookup "UY" a.drivenCons = some (-(displacementOf ps mech_type p fd)) ∧
       List.lookup "UY" b.drivenCons = some (displacementOf ps mech_type p fd)) := by
  constructor
  · have hc : compression_kres ps mech_type p fd = some
        ⟨⟨.node, ⟨(find_bounds ps).ymin, (find_bounds ps).ymin⟩, none⟩, defaultFixedCons,
         ⟨.node, ⟨(find_bounds ps).ymax, (find_bounds ps).ymax⟩, none⟩,
         [("UX", 0), ("UY", -(displacementOf ps mech_type p fd)), ("UZ", 0)]⟩ := by
      simp [compression_kres, apply_boundary_conditions]
    have ht : tension_kres ps mech_type p fd = some
        ⟨⟨.node, ⟨(find_bounds ps).ymin, (find_bounds ps).ymin⟩, none⟩, defaultFixedCons,
         ⟨.node, ⟨(find_bounds ps).ymax, (find_bounds ps).ymax⟩, none⟩,
         [("UX", 0), ("UY", displacementOf ps mech_type p fd), ("UZ", 0)]⟩ := by
      simp [tension_kres, apply_boundary_conditions]
    exact ⟨_, _, hc, ht, rfl, rfl, rfl, rfl, rfl⟩
  · have hc : compression ps mech_type p fd = some
        ⟨⟨.area, ⟨(find_bounds ps).ymin, (find_bounds ps).ymin_2nd⟩, none⟩, defaultFixedCons,
         ⟨.area, ⟨(find_bounds ps).ymax_2nd, (find_bounds ps).ymax⟩, none⟩,
         [("UX", 0), ("UY", -(displacementOf ps mech_type p fd)), ("UZ", 0)]⟩ := by
      simp [compression, apply_boundary_conditions_areas]
    have ht : tension ps mech_type p fd = some
        ⟨⟨.area, ⟨(find_bounds ps).ymin, (find_bounds ps).ymin_2nd⟩, none⟩, defaultFixedCons,
         ⟨.area, ⟨(find_bounds ps).ymax_2nd, (find_bounds ps).ymax⟩, none⟩,
         [("UX", 0), ("UY", displacementOf ps mech_type p fd), ("UZ", 0)]⟩ := by
      simp [tension, apply_boundary_conditions_areas]
    exact ⟨_, _, hc, ht, rfl, rfl, rfl, rfl, rfl⟩

/-- C4: on non-convergence `post_process` writes exactly one record whose
six force/moment slots are all the NaN sentinel while the displacement and
length slots are well-formed numbers, and returns the failed outcome
`false` to the caller. -/
theorem post_process_non_convergence_record (ps : List Pt) (p : ℚ) (mech_type : String)
    (fd : Option ℚ) (fsum : String → ℚ) :
    (post_process ps p mech_type fd false fsum).1.length = 1 ∧
    (∀ r ∈ (post_process ps p mech_type fd false fsum).1,
       r.fx = Val.nan ∧ r.fy = Val.nan ∧ r.fz = Val.nan ∧
       r.mx = Val.nan ∧ r.my = Val.nan ∧ r.mz = Val.nan ∧
       r.disp.isNum = true ∧ r.len.isNum = true) ∧
    (post_process ps p mech_type fd false fsum).2 = false := by
  simp [post_process, Val.isNum]

/-- C5: when the worker outlives the wall-clock timeout (default 1800
seconds) the orchestrator forcibly terminates it, performs no record
write of its own, returns the absent result `none` instead of raising,
and the sweep loop still hands every remaining queued case to a fresh
worker. -/
theorem timeout_case_behavior (t : ℚ) (pre post : List WorkerOutcome) :
    (run_simulation_with_timeout .timesOut t).2 = none ∧
    OrchAction.terminateWorker ∈ (run_simulation_with_timeout .timesOut t).1 ∧
    OrchAction.persistRecord ∉ (run_simulation_with_timeout .timesOut t).1 ∧
    OrchAction.raiseError ∉ (run_simulation_with_timeout .timesOut t).1 ∧
    default_timeout = 1800 ∧
    run_all_sweep (pre ++ WorkerOutcome.timesOut :: post) =
      run_all_sweep pre ++ none :: run_all_sweep post := by
  simp [run_simulation_with_timeout, run_all_sweep, default_timeout]

theorem distSq_comm (p q : Pt) : distSq p q = distSq q p := by
  simp only [distSq]; ring

theorem selectLoop_length_le (limit : ℕ) (nodes : List Pt) :
    ∀ acc : List Pt, acc.length ≤ limit → (selectLoop limit nodes acc).length ≤ limit := by
  induction nodes with
  | nil => intro acc h; simpa [selectLoop] using h
  | cons pt rest ih =>
      intro acc h
      simp only [selectLoop]
      split_ifs with h1 h2
      · refine ih (acc ++ [pt]) ?_
        rw [List.length_append, List.length_singleton]
        omega
      · exact ih acc h
      · exact h

theorem selectLoop_pairsep (limit : ℕ) (nodes : List Pt) :
    ∀ acc : List Pt, PairSep acc → PairSep (selectLoop limit nodes acc) := by
  induction nodes with
  | nil => intro acc h; simpa [selectLoop] using h
  | cons pt rest ih =>
      intro acc h
      simp only [selectLoop]
      split_ifs with h1 h2
      · refine ih (acc ++ [pt]) ?_
        unfold PairSep at h ⊢
        rw [List.pairwise_append]
        refine ⟨h, List.pairwise_singleton _ _, ?_⟩
        intro a ha b hb
        rw [List.mem_singleton] at hb
        subst hb
        rw [Bool.or_eq_true] at h2
        rcases h2 with hemp | hall
        · rw [List.isEmpty_iff] at hemp
          subst hemp
          cases ha
        · have := List.all_eq_true.mp hall a ha
          rw [distSq_comm]
          exact of_decide_eq_true this
      · exact ih acc h
      · exact h

theorem select_unique_points_spec (sorted : List Pt) (a b : ℕ) :
    PairSep (select_unique_points sorted a b).1 ∧
    PairSep (select_unique_points sorted a b).2 ∧
    (select_unique_points sorted a b).1.length ≤ a ∧
    (select_unique_points sorted a b).2.length ≤ b :=
  ⟨selectLoop_pairsep a sorted [] List.Pairwise.nil,
   selectLoop_pairsep b sorted.reverse [] List.Pairwise.nil,
   selectLoop_length_le a sorted [] (Nat.zero_le _),
   selectLoop_length_le b sorted.reverse [] (Nat.zero_le _)⟩

/-- C6: for every input point set, the endpoint clusters returned per Y
extreme are pairwise farther than `1e-6` apart (squared tolerance
`(1e-6)^2`) and contain at most `k` points even when more candidates
exist, with `k = 5` (min side) and `3` (max side) for the PET family and
`2` and `2` for the SCISSOR family. -/
theorem endpoint_cluster_selection_props (nodes : List Pt) :
    sep_tol_sq = ((1 : ℚ)/1000000)^2 ∧
    (PairSep (find_endpoints "PET" nodes).1 ∧ PairSep (find_endpoints "PET" nodes).2 ∧
     (find_endpoints "PET" nodes).1.length ≤ 5 ∧
     (find_endpoints "PET" nodes).2.length ≤ 3) ∧
    (PairSep (find_endpoints "SCISSOR" nodes).1 ∧
     PairSep (find_endpoints "SCISSOR" nodes).2 ∧
     (find_endpoints "SCISSOR" nodes).1.length ≤ 2 ∧
     (find_endpoints "SCISSOR" nodes).2.length ≤ 2) := by
  refine ⟨by norm_num [sep_tol_sq], ?_, ?_⟩
  · simpa [find_endpoints] using select_unique_points_spec (sortByY nodes) 5 3
  · simpa [find_endpoints] using select_unique_points_spec (sortByY nodes) 2 2

/-- C7: for every non-empty keypoint set whose keypoints all share the
same Y coordinate, `find_bounds` falls back to the primary bounds:
`ymin_2nd = ymin` and `ymax_2nd = ymax`, with no error raised. -/
theorem find_bounds_degenerate_y (ps : List Pt) (c : ℚ) (hne : ps ≠ [])
    (hall : ∀ pt ∈ ps, pt.y = c) :
    (find_bounds ps).ymin_2nd = (find_bounds ps).ymin ∧
    (find_bounds ps).ymax_2nd = (find_bounds ps).ymax := by
  have hmapne : ps.map Pt.y ≠ [] := by
    intro h
    exact hne (List.map_eq_nil_iff.mp h)
  have hallmap : ∀ y ∈ ps.map Pt.y, y = c := by
    intro y hy
    rcases List.mem_map.mp hy with ⟨pt, hpt, rfl⟩
    exact hall pt hpt
  have hmin : listMin (ps.map Pt.y) = c := listMin_const _ c hmapne hallmap
  have hmax : listMax (ps.map Pt.y) = c := listMax_const _ c hmapne hallmap
  have hfilmin : ps.filter (fun pt => decide (pt.y ≠ listMin (ps.map Pt.y))) = [] := by
    rw [List.filter_eq_nil_iff]
    intro pt hpt
    simp [hall pt hpt, hmin]
  have hfilmax : ps.filter (fun pt => decide (pt.y ≠ listMax (ps.map Pt.y))) = [] := by
    rw [List.filter_eq_nil_iff]
    intro pt hpt
    simp [hall pt hpt, hmax]
  constructor
  · simp only [find_bounds]
    rw [hfilmin]
    simp
  · simp only [find_bounds]
    rw [hfilmax]
    simp

theorem find_bounds_degenerate_y_witness :
    (find_bounds [⟨0, 5, 0⟩, ⟨1, 5, 2⟩]).ymin_2nd = (find_bounds [⟨0, 5, 0⟩, ⟨1, 5, 2⟩]).ymin ∧
    (find_bounds [⟨0, 5, 0⟩, ⟨1, 5, 2⟩]).ymax_2nd = (find_bounds [⟨0, 5, 0⟩, ⟨1, 5, 2⟩]).ymax :=
  find_bounds_degenerate_y [⟨0, 5, 0⟩, ⟨1, 5, 2⟩] 5 (by decide) (by decide)

/-- C9: when the model's Z extent collapses to zero, end-block creation
for the planar PET/scissor mechanisms substitutes the fixed depth of 3.0
length-units for the block depth: the two blocks created carry depths
`3.0` and `-3.0` (one extrusion each way) instead of the zero extent. -/
theorem planar_zero_z_extent_block_depth (points : List Pt) (zmax zmin : ℚ)
    (p0 p1 : Pt) (rest : List Pt) (hsort : sortByX points = p0 :: p1 :: rest)
    (hz : zmax = zmin) :
    (create_blocks_from_points points zmax zmin).map Block.depth = [3, -3] := by
  have hd : zmax - zmin = 0 := by rw [hz, sub_self]
  simp only [create_blocks_from_points, hsort]
  simp [hd]

theorem planar_zero_z_extent_block_depth_witness :
    (create_blocks_from_points [⟨0, 0, 0⟩, ⟨1, 2, 0⟩] 0 0).map Block.depth = [3, -3] :=
  planar_zero_z_extent_block_depth [⟨0, 0, 0⟩, ⟨1, 2, 0⟩] 0 0 ⟨0, 0, 0⟩ ⟨1, 2, 0⟩ []
    (by decide) rfl

/-- C10: for every non-empty keypoint set the bounds are ordered —
`xmin ≤ xmax`, `ymin ≤ ymax`, `zmin ≤ zmax`, and both second Y bounds lie
within `[ymin, ymax]` — while `ymin_2nd ≤ ymax_2nd` is not guaranteed:
with exactly two distinct Y values the second bounds cross and the derived
inner span is negative. -/
theorem find_bounds_order_invariants (ps : List Pt) (hne : ps ≠ []) :
    ((find_bounds ps).xmin ≤ (find_bounds ps).xmax ∧
     (find_bounds ps).ymin ≤ (find_bounds ps).ymax ∧
     (find_bounds ps).zmin ≤ (find_bounds ps).zmax ∧
     (find_bounds ps).ymin ≤ (find_bounds ps).ymin_2nd ∧
     (find_bounds ps).ymin_2nd ≤ (find_bounds ps).ymax ∧
     (find_bounds ps).ymin ≤ (find_bounds ps).ymax_2nd ∧
     (find_bounds ps).ymax_2nd ≤ (find_bounds ps).ymax) ∧
    ∃ qs : List Pt,
      (uniqueFirstSeen (qs.map Pt.y)).length = 2 ∧
      (find_bounds qs).ymax_2nd < (find_bounds qs).ymin_2nd := by
  have hxs : ps.map Pt.x ≠ [] := fun h => hne (List.map_eq_nil_iff.mp h)
  have hys : ps.map Pt.y ≠ [] := fun h => hne (List.map_eq_nil_iff.mp h)
  have hzs : ps.map Pt.z ≠ [] := fun h => hne (List.map_eq_nil_iff.mp h)
  have mem_ys : ∀ {fil : List Pt}, (∀ pt ∈ fil, pt ∈ ps) →
      ∀ y ∈ fil.map Pt.y, y ∈ ps.map Pt.y := by
    intro fil hsub y hy
    rcases List.mem_map.mp hy with ⟨pt, hpt, rfl⟩
    exact List.mem_map_of_mem Pt.y (hsub pt hpt)
  refine ⟨⟨?_, ?_, ?_, ?_, ?_, ?_, ?_⟩, ?_⟩
  · exact listMin_le_listMax _ hxs
  · exact listMin_le_listMax _ hys
  · exact listMin_le_listMax _ hzs
  · show (find_bounds ps).ymin ≤ (find_bounds ps).ymin_2nd
    simp only [find_bounds]
    split_ifs with hemp
    · exact le_refl _
    · have hfne : (ps.filter (fun pt => decide (pt.y ≠ listMin (ps.map Pt.y)))).map Pt.y ≠ [] := by
        intro h
        rw [h] at hemp
        exact hemp rfl
      exact listMin_le _ _ (mem_ys (fun pt hpt => List.mem_of_mem_filter hpt)
        _ (listMin_mem _ hfne))
  · show (find_bounds ps).ymin_2nd ≤ (find_bounds ps).ymax
    simp only [find_bounds]
    split_ifs with hemp
    · exact listMin_le_listMax _ hys
    · have hfne : (ps.filter (fun pt => decide (pt.y ≠ listMin (ps.map Pt.y)))).map Pt.y ≠ [] := by
        intro h
        rw [h] at hemp
        exact hemp rfl
      exact le_listMax _ _ (mem_ys (fun pt hpt => List.mem_of_mem_filter hpt)
        _ (listMin_mem _ hfne))
  · show (find_bounds ps).ymin ≤ (find_bounds ps).ymax_2nd
    simp only [find_bounds]
    split_ifs with hemp
    · exact listMin_le_listMax _ hys
    · have hfne : (ps.filter (fun pt => decide (pt.y ≠ listMax (ps.map Pt.y)))).map Pt.y ≠ [] := by
        intro h
        rw [h] at hemp
        exact hemp rfl
      exact listMin_le _ _ (mem_ys (fun pt hpt => List.mem_of_mem_filter hpt)
        _ (listMax_mem _ hfne))
  · show (find_bounds ps).ymax_2nd ≤ (find_bounds ps).ymax
    simp only [find_bounds]
    split_ifs with hemp
    · exact le_refl _
    · have hfne : (ps.filter (fun pt => decide (pt.y ≠ listMax (ps.map Pt.y)))).map Pt.y ≠ [] := by
        intro h
        rw [h] at hemp
        exact hemp rfl
      exact le_listMax _ _ (mem_ys (fun pt hpt => List.mem_of_mem_filter hpt)
        _ (listMax_mem _ hfne))
  · exact ⟨[⟨0, 0, 0⟩, ⟨0, 1, 0⟩], by decide, by decide⟩

theorem find_bounds_order_invariants_witness :
    ((find_bounds [⟨1, 2, 3⟩]).xmin ≤ (find_bounds [⟨1, 2, 3⟩]).xmax ∧
     (find_bounds [⟨1, 2, 3⟩]).ymin ≤ (find_bounds [⟨1, 2, 3⟩]).ymax ∧
     (find_bounds [⟨1, 2, 3⟩]).zmin ≤ (find_bounds [⟨1, 2, 3⟩]).zmax ∧
     (find_bounds [⟨1, 2, 3⟩]).ymin ≤ (find_bounds [⟨1, 2, 3⟩]).ymin_2nd ∧
     (find_bounds [⟨1, 2, 3⟩]).ymin_2nd ≤ (find_bounds [⟨1, 2, 3⟩]).ymax ∧
     (find_bounds [⟨1, 2, 3⟩]).ymin ≤ (find_bounds [⟨1, 2, 3⟩]).ymax_2nd ∧
     (find_bounds [⟨1, 2, 3⟩]).ymax_2nd ≤ (find_bounds [⟨1, 2, 3⟩]).ymax) ∧
    ∃ qs : List Pt,
      (uniqueFirstSeen (qs.map Pt.y)).length = 2 ∧
      (find_bounds qs).ymax_2nd < (find_bounds qs).ymin_2nd :=
  find_bounds_order_invariants [⟨1, 2, 3⟩] (by decide)

/-- C3 counterexample: on a member table with two rows of widths `1, 1`
and heights `1, 2` (so one distinct width but two distinct
`(width, height)` pairs), the geometry loader creates one profile, not
two: the profile count is the number of distinct widths, not the number
of distinct pairs. -/
theorem profile_count_mismatch_cex :
    (beam_model_profiles cexRows 1000 (3/5)).map List.length ≠
      some (spec_distinct_pair_count cexRows) := by
  norm_num [beam_model_profiles, cross_section_types, scaled_rows, uniqueFirstSeen,
            spec_distinct_pair_count, cexRows]

/-- C3 amended: the number of profiles created by the geometry loader
equals the number of distinct (scaled) width values taken in input order,
heights being paired with widths positionally (the loader fails when there
are fewer distinct heights than distinct widths); and every member row is
assigned section number 1 by the global `latt` call, regardless of its own
`(width, height)` pair. -/
theorem profile_creation_amended (rows : List MemberRow) (scale cross_scale : ℚ)
    (l : List (ℚ × ℚ)) (h : beam_model_profiles rows scale cross_scale = some l) :
    l.length =
      (uniqueFirstSeen ((scaled_rows scale cross_scale rows).map MemberRow.width)).length ∧
    beam_model_secnum rows = List.replicate rows.length 1 := by
  constructor
  · simp only [beam_model_profiles, cross_section_types] at h
    split_ifs at h
    injection h with h2
    subst h2
    rw [List.length_map, List.length_range]
  · simp [beam_model_secnum]

theorem profile_creation_amended_witness :
    ([((2 : ℚ), (5 : ℚ))].length =
      (uniqueFirstSeen ((scaled_rows 1 1 [wRow]).map MemberRow.width)).length) ∧
    beam_model_secnum [wRow] = List.replicate ([wRow] : List MemberRow).length 1 :=
  profile_creation_amended [wRow] 1 1 [(2, 5)]
    (by norm_num [beam_model_profiles, cross_section_types, scaled_rows,
          uniqueFirstSeen, wRow]
        decide)

end HerdsAnsys
